import Mathlib

/-!
Verification of the FIT parsing/validation/repair core of the
garmin-usb-mac-app repository (src/garmin_uploader_mac.py and
src/garmin_uploader_win.py), as a shallow embedding in Lean 4.

Modelling conventions, shared by all definitions below:

* A fitparse field value (Python: `None`, `int`, `str`, `float`) is the
  inductive `FieldValue`.  Floats are modelled as rationals: the code under
  verification only moves them around and formats them, it never performs
  float arithmetic whose rounding could be observed.
* A decoded message ("record") is its ordered list of `(field_name, value)`
  pairs, exactly what the `for field in record.fields` loops traverse.
* Python truthiness (`if field.value:`) is `pyTruthy`; `str(...)` is `pyStr`
  (string fields are carried verbatim; `str` of a rational is modelled by its
  `toString`, a case no enum-valued field ever hits); `int(...)` is `pyInt`
  (truncation towards zero); `float(...)` is `pyFloat`.
* Calls into the external `fitparse` / `amakaflow-fitfiletool` libraries
  (decoding a file into messages, `build_fit_workout`) are inputs of the
  embedded functions: a parse outcome is `Except String _` where `.error e`
  is the Python exception with message `e` caught by the surrounding
  `try/except`.
-/

inductive FieldValue where
  | null : FieldValue
  | int : ℤ → FieldValue
  | str : String → FieldValue
  | float : ℚ → FieldValue
deriving DecidableEq, Repr

/-- A decoded FIT message as iterated by `for field in record.fields`. -/
abbrev FitRecord := List (String × FieldValue)

/-- Python truthiness of a fitparse field value. -/
def pyTruthy : FieldValue → Bool
  | .null => false
  | .int n => n ≠ 0
  | .str s => s ≠ ""
  | .float q => q ≠ 0

/-- Python `str(...)` on a field value. -/
def pyStr : FieldValue → String
  | .null => "None"
  | .int n => toString n
  | .str s => s
  | .float q => toString q

/-- Truncation of a rational towards zero, Python `int(float_value)`. -/
def ratTrunc (q : ℚ) : ℤ := if 0 ≤ q then ⌊q⌋ else ⌈q⌉

/-- Python `int(...)` on a field value (numeric cases; the code only applies
it to numeric FIT fields). -/
def pyInt : FieldValue → ℤ
  | .null => 0
  | .int n => n
  | .str _ => 0
  | .float q => ratTrunc q

/-- Python `float(...)` on a field value (numeric cases). -/
def pyFloat : FieldValue → ℚ
  | .null => 0
  | .int n => (n : ℚ)
  | .str _ => 0
  | .float q => q

/-- Boolean prefix test on character lists. -/
def charsPrefix : List Char → List Char → Bool
  | [], _ => true
  | _ :: _, [] => false
  | a :: as, b :: bs => a == b && charsPrefix as bs

/-- Boolean contiguous-substring test on character lists, Python `pat in s`. -/
def charsSub (pat : List Char) : List Char → Bool
  | [] => pat.isEmpty
  | c :: t => charsPrefix pat (c :: t) || charsSub pat t

/-- Python `pat in s` on strings. -/
def strContains (s pat : String) : Bool := charsSub pat.toList s.toList

/-- Python `s.replace('_', ' ')`. -/
def pyReplUnd (s : String) : String :=
  String.mk (s.toList.map (fun c => if c = '_' then ' ' else c))

/-- Python `s.lower()` (ASCII lowering suffices for the enum strings the
code compares). -/
def pyLower (s : String) : String :=
  String.mk (s.toList.map Char.toLower)

/-- Helper for `pyTitle`: the boolean records whether the previous character
was alphabetic. -/
def pyTitleAux : Bool → List Char → List Char
  | _, [] => []
  | prev, c :: t =>
    if c.isAlpha then
      (if prev then c.toLower else c.toUpper) :: pyTitleAux true t
    else
      c :: pyTitleAux false t

/-- Python `s.title()`: first letter of each alphabetic run uppercased, the
rest lowercased. -/
def pyTitle (s : String) : String := String.mk (pyTitleAux false s.toList)

/-! ## Validator (`validate_fit_file`, mac lines 2079-2106 / win 870-894)

The local (fitparse-based) validation path shared verbatim by both variants:
scan every `workout_step` message for `exercise_category` fields carried as
raw integers outside `set(range(33))`, deduplicate, and report. -/

/-- One field of a `workout_step` record, mapped to the invalid category it
contributes, if any: the field must be named `exercise_category`, carry an
`int` (Python `isinstance(field.value, int)`; `None` is not an `int`), and
the value must fall outside `VALID_CATEGORIES = set(range(33))`. -/
def invalidOfField : String × FieldValue → Option ℤ
  | ("exercise_category", .int n) => if 0 ≤ n ∧ n ≤ 32 then none else some n
  | _ => none

/-- The `invalid_categories` accumulator of the two nested `for` loops of
`validate_fit_file` (before deduplication). -/
def collectInvalid (msgs : List FitRecord) : List ℤ :=
  msgs.flatMap (fun r => r.filterMap invalidOfField)

/-- Result dictionary of `validate_fit_file`. -/
structure ValidationResult where
  valid : Bool
  issues : List String
  warnings : List String
  invalid_categories : List ℤ
deriving DecidableEq, Repr

/-- `validate_fit_file`, local fitparse path (mac lines 2079-2106, win lines
870-894, textually identical logic).  Its input is the outcome of
`FitFile(filepath)` + message iteration: `.error e` is an exception raised
inside the `try` block, `.ok msgs` the list of decoded `workout_step`
messages.  `list(set(...))` is modelled by `List.dedup`; the Python `set`
iteration order inside the issue string is unspecified, the model uses the
deduplicated list's order. -/
def validate_fit_file (parsed : Except String (List FitRecord)) :
    ValidationResult :=
  match parsed with
  | .error e =>
    { valid := false
      issues := ["Error validating file: " ++ e]
      warnings := []
      invalid_categories := [] }
  | .ok msgs =>
    let invalid_categories := collectInvalid msgs
    let issues :=
      if invalid_categories.isEmpty then ([] : List String)
      else
        ["Invalid exercise categories found: " ++
          toString invalid_categories.dedup,
         "These may cause the workout to not appear on your Garmin watch."]
    { valid := issues.isEmpty
      issues := issues
      warnings := []
      invalid_categories := invalid_categories.dedup }

lemma invalidOfField_eq_some {f : String × FieldValue} {v : ℤ} :
    invalidOfField f = some v ↔
      f = ("exercise_category", .int v) ∧ ¬(0 ≤ v ∧ v ≤ 32) := by
  constructor
  · intro h
    unfold invalidOfField at h
    split at h
    · rename_i n
      by_cases hr : 0 ≤ n ∧ n ≤ 32
      · rw [if_pos hr] at h
        exact absurd h (by simp)
      · rw [if_neg hr] at h
        injection h with h
        subst h
        exact ⟨rfl, hr⟩
    · exact absurd h (by simp)
  · rintro ⟨rfl, hr⟩
    simp [invalidOfField, hr]

lemma mem_collectInvalid {msgs : List FitRecord} {v : ℤ} :
    v ∈ collectInvalid msgs ↔
      ∃ r ∈ msgs, ("exercise_category", FieldValue.int v) ∈ r ∧
        ¬(0 ≤ v ∧ v ≤ 32) := by
  simp only [collectInvalid, List.mem_flatMap, List.mem_filterMap,
    invalidOfField_eq_some]
  constructor
  · rintro ⟨r, hr, f, hf, rfl, hrange⟩
    exact ⟨r, hr, hf, hrange⟩
  · rintro ⟨r, hr, hf, hrange⟩
    exact ⟨r, hr, _, hf, rfl, hrange⟩

/-- Claim C1: for every decoded input, the validator's `invalid_categories`
is exactly the set of distinct raw integer `exercise_category` values outside
the closed range `[0, 32]` occurring in the `workout_step` messages (values
carried as named enum strings are never flagged, as only `int`-typed values
enter the collection), and `valid` is `false` exactly when at least one such
value exists. -/
theorem validate_fit_file_invalid_categories_exact (msgs : List FitRecord) :
    (∀ v : ℤ,
      v ∈ (validate_fit_file (.ok msgs)).invalid_categories ↔
        (¬(0 ≤ v ∧ v ≤ 32) ∧
          ∃ r ∈ msgs, ("exercise_category", FieldValue.int v) ∈ r)) ∧
    (validate_fit_file (.ok msgs)).invalid_categories.Nodup ∧
    ((validate_fit_file (.ok msgs)).valid = false ↔
      ∃ v : ℤ, ¬(0 ≤ v ∧ v ≤ 32) ∧
        ∃ r ∈ msgs, ("exercise_category", FieldValue.int v) ∈ r) := by
  refine ⟨?_, ?_, ?_⟩
  · intro v
    simp only [validate_fit_file, List.mem_dedup, mem_collectInvalid]
    constructor
    · rintro ⟨r, hr, hf, hrange⟩
      exact ⟨hrange, r, hr, hf⟩
    · rintro ⟨hrange, r, hr, hf⟩
      exact ⟨r, hr, hf, hrange⟩
  · simpa [validate_fit_file] using (collectInvalid msgs).nodup_dedup
  · have hval : (validate_fit_file (.ok msgs)).valid =
        (collectInvalid msgs).isEmpty := by
      simp only [validate_fit_file]
      by_cases h : (collectInvalid msgs).isEmpty
      · simp [h]
      · simp [h]
    rw [hval]
    constructor
    · intro hfalse
      have hne : collectInvalid msgs ≠ [] := by
        intro hnil
        rw [hnil] at hfalse
        exact absurd hfalse (by simp)
      rcases List.exists_mem_of_ne_nil _ hne with ⟨v, hv⟩
      rcases mem_collectInvalid.mp hv with ⟨r, hr, hf, hrange⟩
      exact ⟨v, hrange, r, hr, hf⟩
    · rintro ⟨v, hrange, r, hr, hf⟩
      have hv : v ∈ collectInvalid msgs :=
        mem_collectInvalid.mpr ⟨r, hr, hf, hrange⟩
      cases hcl : collectInvalid msgs with
      | nil => rw [hcl] at hv; exact absurd hv (List.not_mem_nil v)
      | cons a t => simp [hcl]

/-- Claim C6: validation never propagates an exception: the embedded
`validate_fit_file` is a total function, and when the internal parse fails
(the `try` body raises with message `e`), the result has `valid = false` and
exactly one issue string, describing the parse error. -/
theorem validate_fit_file_parse_error_total (e : String) :
    (validate_fit_file (.error e)).valid = false ∧
    (validate_fit_file (.error e)).issues = ["Error validating file: " ++ e] ∧
    (validate_fit_file (.error e)).issues.length = 1 := by
  refine ⟨rfl, rfl, rfl⟩

/-! ## Basic binary parser (`parse_fit_basic`, mac lines 2420-2475)

The degraded fallback parser: validate the FIT header directly on the raw
bytes, then scan for printable-ASCII runs that look like workout or exercise
names.  A byte stream is a `List ℕ`. -/

/-- Minimal workout model produced by `parse_fit_basic`: the workout name and
the `(name, type)` step entries. -/
structure BasicWorkout where
  name : String
  steps : List (String × String)
deriving DecidableEq, Repr

/-- State of the printable-string scan loop of `parse_fit_basic`. -/
structure BasicScanState where
  text_start : Option ℕ
  name : String
  steps : List (String × String)
deriving DecidableEq, Repr

/-- The keyword list of the scan loop. -/
def basicKeywords : List String :=
  ["workout", "exercise", "run", "bike", "swim", "strength"]

/-- Processing of one completed printable run `data[text_start:i]` (decoded
with `errors='ignore'`; every byte in the run is in `32..126`, hence plain
ASCII).  Mirrors mac lines 2453-2461. -/
def basicHandleText (st : BasicScanState) (text : String) : BasicScanState :=
  if 4 ≤ text.length &&
      (match text.toList with
        | [] => true
        | c :: _ => !(c == '.' || c == '/' || c == '\\')) then
    if basicKeywords.any (fun kw => strContains (pyLower text) kw) then
      if st.steps.isEmpty then { st with name := text } else st
    else if text.length < 30 then
      { st with steps := st.steps ++ [(text, "exercise")] }
    else st
  else st

/-- One iteration of the scan loop at index `i` (mac lines 2447-2462). -/
def basicScanStep (data : List ℕ) (st : BasicScanState) (i : ℕ) :
    BasicScanState :=
  let b := data.getD i 0
  if 32 ≤ b ∧ b ≤ 126 then
    match st.text_start with
    | none => { st with text_start := some i }
    | some _ => st
  else
    match st.text_start with
    | none => st
    | some ts =>
      let st' :=
        if i - ts ≥ 4 then
          basicHandleText st
            (String.mk (((data.drop ts).take (i - ts)).map Char.ofNat))
        else st
      { st' with text_start := none }

/-- `parse_fit_basic` (mac lines 2420-2475), with the file's bytes as input.
The header is checked (length at least 14, `data[0] >= 12`, bytes 8-11 equal
to the ASCII signature `.FIT`), then the printable-string scan runs over
`range(header_size, len(data) - 4)`; if no step was found, the placeholder
steps are substituted. -/
def parse_fit_basic (data : List ℕ) : Option BasicWorkout :=
  if data.length < 14 then none
  else
    let header_size := data.headD 0
    if header_size < 12 then none
    else if (data.drop 8).take 4 ≠ [46, 70, 73, 84] then none
    else
      let indices := (List.range (data.length - 4)).drop header_size
      let st := indices.foldl (basicScanStep data)
        { text_start := none, name := "Workout", steps := [] }
      some
        { name := st.name
          steps :=
            if st.steps.isEmpty then
              [("Workout content", "workout"),
               ("(Install fitparse for detailed view)", "info")]
            else st.steps }

/-- Claim C7: any byte stream that is too short to contain the 12-or-14-byte
header region the parser reads (fewer than 14 bytes), or whose byte 0
(header size) is below 12, or whose bytes 8-11 are not the ASCII signature
`.FIT`, makes the basic binary parser fail with no workout model. -/
theorem parse_fit_basic_bad_header (data : List ℕ)
    (h : data.length < 14 ∨ data.headD 0 < 12 ∨
      (data.drop 8).take 4 ≠ [46, 70, 73, 84]) :
    parse_fit_basic data = none := by
  unfold parse_fit_basic
  by_cases h1 : data.length < 14
  · rw [if_pos h1]
  · rw [if_neg h1]
    by_cases h2 : data.headD 0 < 12
    · rw [if_pos h2]
    · rw [if_neg h2]
      have h3 : (data.drop 8).take 4 ≠ [46, 70, 73, 84] := by
        rcases h with h | h | h
        · exact absurd h h1
        · exact absurd h h2
        · exact h
      rw [if_pos h3]

/-- Witness for C7: a concrete 20-byte stream whose header-size byte is 0. -/
theorem parse_fit_basic_bad_header_witness :
    parse_fit_basic (List.replicate 20 0) = none :=
  parse_fit_basic_bad_header (List.replicate 20 0)
    (Or.inr (Or.inl (by decide)))

/-! ## Repair output path (`repair_fit_file`, mac lines 2108-2160 / win
896-940)

`repair_fit_file` converts the parsed workout into the simplified shape,
calls the external `build_fit_workout`, and writes the produced bytes to
`f"{base}_repaired{ext}"` where `base, ext = os.path.splitext(filepath)`.
The file system is modelled as a map from paths to byte contents; the
external builder's outcome is an input (`.error` = exception caught by the
`except` block). -/

/-- Index of the last occurrence of `c` in `p`, as Python `str.rfind`
(`-1` when absent).  `i` is the index of the current head, `best` the best
index found so far. -/
def rfindAux (c : Char) : List Char → ℕ → ℤ → ℤ
  | [], _, best => best
  | x :: t, i, best => rfindAux c t (i + 1) (if x = c then (i : ℤ) else best)

/-- Python `p.rfind(c)`. -/
def pyRfind (c : Char) (p : List Char) : ℤ := rfindAux c p 0 (-1)

/-- The split position of `posixpath.splitext` on `p`: the extension starts
at the last dot, provided it comes after the last path separator and at
least one non-dot character of the basename precedes it; otherwise there is
no extension and the split position is `p.length`. -/
def splitextIdx (p : List Char) : ℕ :=
  let sepIndex := pyRfind '/' p
  let dotIndex := pyRfind '.' p
  if sepIndex < dotIndex then
    if (List.range p.length).any
        (fun j => decide (sepIndex < (j : ℤ) ∧ (j : ℤ) < dotIndex ∧
          p.getD j ' ' ≠ '.')) then
      dotIndex.toNat
    else p.length
  else p.length

/-- `base` of `os.path.splitext(filepath)`. -/
def splitextBase (p : String) : String :=
  String.mk (p.toList.take (splitextIdx p.toList))

/-- `ext` of `os.path.splitext(filepath)`. -/
def splitextExt (p : String) : String :=
  String.mk (p.toList.drop (splitextIdx p.toList))

/-- The output path `f"{base}_repaired{ext}"` of `repair_fit_file`
(mac lines 2152-2153, win lines 932-933). -/
def repairNewPath (p : String) : String :=
  String.mk (p.toList.take (splitextIdx p.toList) ++ "_repaired".toList ++
    p.toList.drop (splitextIdx p.toList))

/-- A file system snapshot: contents by path. -/
def FileSys := String → Option (List ℕ)

/-- `repair_fit_file` (mac lines 2108-2160, win 896-940): given the file
system, the input path and the outcome of `build_fit_workout` on the
converted workout, return the `(new_path, error)` pair together with the
file system after the write.  On a builder exception nothing is written and
`(None, message)` is returned; on success the bytes are written to
`repairNewPath filepath` and `(new_path, None)` is returned. -/
def repair_fit_file (fs : FileSys) (filepath : String)
    (build : Except String (List ℕ)) :
    (Option String × Option String) × FileSys :=
  match build with
  | .error e => ((none, some ("Error repairing file: " ++ e)), fs)
  | .ok fitBytes =>
    ((some (repairNewPath filepath), none),
      fun q => if q = repairNewPath filepath then some fitBytes else fs q)

lemma repairNewPath_ne (p : String) : repairNewPath p ≠ p := by
  intro h
  have hlist : (p.toList.take (splitextIdx p.toList) ++ "_repaired".toList ++
      p.toList.drop (splitextIdx p.toList)) = p.toList :=
    congrArg String.data h
  have hlen := congrArg List.length hlist
  have h9 : ("_repaired".toList).length = 9 := rfl
  simp only [List.length_append, List.length_take, List.length_drop, h9]
    at hlen
  omega

/-- Claim C8: for every input path and every builder outcome,
`repair_fit_file` leaves the input file's bytes unchanged; the output path
is obtained by inserting `_repaired` between the `os.path.splitext` base and
extension of the input path (whose concatenation is the input path itself),
and is therefore never equal to the input path. -/
theorem repair_fit_file_new_path_frame (fs : FileSys) (filepath : String)
    (build : Except String (List ℕ)) :
    (repair_fit_file fs filepath build).2 filepath = fs filepath ∧
    repairNewPath filepath =
      splitextBase filepath ++ "_repaired" ++ splitextExt filepath ∧
    splitextBase filepath ++ splitextExt filepath = filepath ∧
    repairNewPath filepath ≠ filepath ∧
    (∀ bytes, build = .ok bytes →
      (repair_fit_file fs filepath build).2 (repairNewPath filepath) =
        some bytes) := by
  refine ⟨?_, rfl, ?_, repairNewPath_ne filepath, ?_⟩
  · cases build with
    | error e => rfl
    | ok fitBytes =>
      simp only [repair_fit_file]
      rw [if_neg]
      intro h
      exact repairNewPath_ne filepath h.symm
  · exact congrArg String.mk (List.take_append_drop _ _)
  · intro bytes hb
    subst hb
    simp [repair_fit_file]

/-! ## `parse_fit_with_fitparse`: raw step extraction

The "second pass" field-extraction loops (mac lines 2227-2280, win lines
1007-1043) build one step dictionary per `workout_step` message.  Absent
dictionary keys are `none` / the structure defaults. -/

/-- The decoded step dictionary built by the extraction loop. -/
structure RawStep where
  name : Option FieldValue := none
  category : Option String := none
  exercise_id : FieldValue := .null
  duration_type : Option String := none
  duration_step : Option ℤ := none
  repeat_count : Option ℤ := none
  reps : Option ℤ := none
  duration : Option ℚ := none
  distance : Option ℚ := none
  intensity : Option String := none
  is_rest : Bool := false
  is_repeat : Bool := false
  is_warmup : Bool := false
  weight : Option ℚ := none
  weight_unit : Option String := none
  notes : Option FieldValue := none
  target_type : Option String := none
  target_value : Option FieldValue := none
deriving DecidableEq, Repr

/-- One iteration of the mac extraction `if/elif` chain (lines 2230-2278). -/
def macStepField (s : RawStep) (f : String × FieldValue) : RawStep :=
  if f.1 = "wkt_step_name" then
    if pyTruthy f.2 then { s with name := some f.2 } else s
  else if f.1 = "exercise_category" then
    if pyTruthy f.2 then { s with category := some (pyStr f.2) } else s
  else if f.1 = "exercise_name" then { s with exercise_id := f.2 }
  else if f.1 = "duration_type" then
    let dtype := if pyTruthy f.2 then pyStr f.2 else ""
    let isRep := strContains (pyLower dtype) "repeat" ||
      dtype == "6" || dtype == "7" || dtype == "8" || dtype == "9"
    { s with duration_type := some dtype
             is_repeat := if isRep then true else s.is_repeat }
  else if f.1 = "duration_step" then
    if f.2 ≠ .null then { s with duration_step := some (pyInt f.2) } else s
  else if f.1 = "duration_value" then
    if f.2 ≠ .null then
      (if s.is_repeat then { s with repeat_count := some (pyInt f.2) } else s)
    else s
  else if f.1 = "duration_reps" then
    if pyTruthy f.2 then { s with reps := some (pyInt f.2) } else s
  else if f.1 = "duration_time" then
    if pyTruthy f.2 then { s with duration := some (pyFloat f.2) } else s
  else if f.1 = "duration_distance" then
    if pyTruthy f.2 then { s with distance := some (pyFloat f.2) } else s
  else if f.1 = "intensity" then
    let intensity := if f.2 = .null then none else some (pyStr f.2)
    let s' := { s with intensity := intensity }
    match intensity with
    | some v =>
      if v = "rest" ∨ v = "1" then { s' with is_rest := true }
      else if v = "warmup" ∨ v = "2" then { s' with is_warmup := true }
      else s'
    | none => s'
  else if f.1 = "repeat_steps" then
    if pyTruthy f.2 then
      { s with is_repeat := true, repeat_count := some (pyInt f.2) }
    else s
  else if f.1 = "exercise_weight" then
    if pyTruthy f.2 then { s with weight := some (pyFloat f.2) } else s
  else if f.1 = "weight_display_unit" then
    { s with weight_unit := some (if pyTruthy f.2 then pyStr f.2 else "kg") }
  else if f.1 = "notes" then
    if pyTruthy f.2 then { s with notes := some f.2 } else s
  else if f.1 = "target_type" then
    if pyTruthy f.2 then { s with target_type := some (pyStr f.2) } else s
  else if f.1 = "target_value" then
    if pyTruthy f.2 then { s with target_value := some f.2 } else s
  else s

/-- Mac decoding of one `workout_step` message into a step dictionary. -/
def macExtractStep (r : FitRecord) : RawStep := r.foldl macStepField {}

/-- One iteration of the win extraction `if/elif` chain (lines 1010-1041):
no `duration_step`/`duration_value` handling, `duration_type` stored with a
bare `str(...)`, intensity guarded by truthiness and compared against the
string `'rest'` only, no warmup flag. -/
def winStepField (s : RawStep) (f : String × FieldValue) : RawStep :=
  if f.1 = "wkt_step_name" then
    if pyTruthy f.2 then { s with name := some f.2 } else s
  else if f.1 = "exercise_category" then
    if pyTruthy f.2 then { s with category := some (pyStr f.2) } else s
  else if f.1 = "exercise_name" then { s with exercise_id := f.2 }
  else if f.1 = "duration_type" then { s with duration_type := some (pyStr f.2) }
  else if f.1 = "duration_reps" then
    if pyTruthy f.2 then { s with reps := some (pyInt f.2) } else s
  else if f.1 = "duration_time" then
    if pyTruthy f.2 then { s with duration := some (pyFloat f.2) } else s
  else if f.1 = "duration_distance" then
    if pyTruthy f.2 then { s with distance := some (pyFloat f.2) } else s
  else if f.1 = "intensity" then
    let intensity := if pyTruthy f.2 then some (pyStr f.2) else none
    let s' := { s with intensity := intensity }
    if intensity = some "rest" then { s' with is_rest := true } else s'
  else if f.1 = "repeat_steps" then
    if pyTruthy f.2 then
      { s with is_repeat := true, repeat_count := some (pyInt f.2) }
    else s
  else if f.1 = "exercise_weight" then
    if pyTruthy f.2 then { s with weight := some (pyFloat f.2) } else s
  else if f.1 = "weight_display_unit" then
    { s with weight_unit := some (if pyTruthy f.2 then pyStr f.2 else "kg") }
  else if f.1 = "notes" then
    if pyTruthy f.2 then { s with notes := some f.2 } else s
  else if f.1 = "target_type" then
    if pyTruthy f.2 then { s with target_type := some (pyStr f.2) } else s
  else if f.1 = "target_value" then
    if pyTruthy f.2 then { s with target_value := some f.2 } else s
  else s

/-- Win decoding of one `workout_step` message into a step dictionary. -/
def winExtractStep (r : FitRecord) : RawStep := r.foldl winStepField {}

/-! ## Exercise title index (mac lines 2198-2213, win lines 978-993)

One dictionary keyed both by `(category, exercise_id)` tuples and by the
bare category string; the two key shapes never collide, so they are modelled
as two association lists.  Later insertions shadow earlier ones (Python dict
overwrite), realised by consing at the head and first-match lookup. -/

/-- The `title_data` dictionary for one `exercise_title` record. -/
structure TitleData where
  name : Option FieldValue := none
  category : Option String := none
  exercise_id : FieldValue := .null
deriving DecidableEq, Repr

/-- One iteration of the title-extraction `if/elif` chain. -/
def titleField (td : TitleData) (f : String × FieldValue) : TitleData :=
  if f.1 = "wkt_step_name" then { td with name := some f.2 }
  else if f.1 = "exercise_category" then
    { td with category := if pyTruthy f.2 then some (pyStr f.2) else none }
  else if f.1 = "exercise_name" then { td with exercise_id := f.2 }
  else td

/-- The `exercise_titles` dictionary. -/
structure TitleIndex where
  pairs : List ((String × FieldValue) × FieldValue) := []
  cats : List (String × FieldValue) := []
deriving DecidableEq, Repr

/-- Index one `exercise_title` record: requires truthy category and name
(`if title_data.get('category') and title_data.get('name')`). -/
def addTitle (idx : TitleIndex) (r : FitRecord) : TitleIndex :=
  let td := r.foldl titleField {}
  match td.category, td.name with
  | some c, some nm =>
    if c ≠ "" ∧ pyTruthy nm then
      { pairs := ((c, td.exercise_id), nm) :: idx.pairs
        cats := (c, nm) :: idx.cats }
    else idx
  | _, _ => idx

/-- First pass over all `exercise_title` messages. -/
def buildTitles (msgs : List FitRecord) : TitleIndex := msgs.foldl addTitle {}

/-! ## Workout metadata and sport classification -/

/-- Fields harvested from `workout` messages (both variants, identical). -/
structure WorkoutMeta where
  name : FieldValue := .str "Workout"
  sport : Option String := none
  sub_sport : Option String := none
deriving DecidableEq, Repr

/-- One iteration of the `workout`-message loop. -/
def workoutField (m : WorkoutMeta) (f : String × FieldValue) : WorkoutMeta :=
  if f.1 = "wkt_name" then
    if pyTruthy f.2 then { m with name := f.2 } else m
  else if f.1 = "sport" then
    if pyTruthy f.2 then { m with sport := some (pyStr f.2) } else m
  else if f.1 = "sub_sport" then
    if pyTruthy f.2 then { m with sub_sport := some (pyStr f.2) } else m
  else m

/-- Metadata fold over all `workout` messages. -/
def workoutMeta (msgs : List FitRecord) : WorkoutMeta :=
  msgs.foldl (fun m r => r.foldl workoutField m) {}

/-- The fuzzy sport list (mac line 2285, win line 1048). -/
def cardio_sports : List String :=
  ["running", "cycling", "swimming", "walking", "hiking", "run", "bike",
   "swim", "walk", "hike", "cardio", "trail_running", "treadmill"]

/-- `is_cardio` (mac line 2286, win line 1049): exact membership of the
lowercased sport or sub-sport, or `'run'` occurring as a substring of
either. -/
def isCardio (sport sub_sport : Option String) : Bool :=
  let sl := pyLower (sport.getD "")
  let ssl := pyLower (sub_sport.getD "")
  cardio_sports.contains sl || cardio_sports.contains ssl ||
    strContains sl "run" || strContains ssl "run"

/-! ## Display steps (the "third pass") -/

/-- The weight string of a display step.  `lbs w` is mac
`f"{weight:.0f} lbs"`, `kg w` is mac `f"{weight:.1f} kg"`, `raw n u` is win
`f"{int(weight)} {unit}"`; the numeric payload is the value being formatted
(decimal rendering of the rational is not modelled, the unit tag and the
unconverted number are what the claims are about). -/
inductive WeightDisplay where
  | lbs : ℚ → WeightDisplay
  | kg : ℚ → WeightDisplay
  | raw : ℤ → String → WeightDisplay
deriving DecidableEq, Repr

/-- The zone entry of a display step.  `raw v` is mac's
`exercise['zone'] = step['notes']`; `hr`/`pace`/`power` are win's formatted
target strings with their numeric payloads. -/
inductive ZoneDisplay where
  | raw : FieldValue → ZoneDisplay
  | hr : ℤ → ZoneDisplay
  | pace : FieldValue → ZoneDisplay
  | power : ℤ → ZoneDisplay
deriving DecidableEq, Repr

/-- A display step dictionary as appended to `exercises` by the third pass
(absent keys are the defaults). -/
structure DStep where
  is_rest : Bool := false
  is_repeat : Bool := false
  step_type : Option String := none
  name : Option FieldValue := none
  duration_type : Option String := none
  rest_seconds : Option ℚ := none
  duration : Option ℚ := none
  category : Option String := none
  repeat_count : Option ℤ := none
  reps : Option ℤ := none
  distance : Option ℚ := none
  weight : Option WeightDisplay := none
  notes : Option FieldValue := none
  zone : Option ZoneDisplay := none
  sets : Option ℤ := none
  typ : Option String := none
  rest : Option ℚ := none
deriving DecidableEq, Repr

/-- Python truthiness of `step.get('repeat_count')`. -/
def truthyOptInt : Option ℤ → Bool
  | some n => n ≠ 0
  | none => false

/-- Python truthiness of `step.get('duration')`. -/
def truthyOptRat : Option ℚ → Bool
  | some q => q ≠ 0
  | none => false

/-- The repeat display step (mac lines 2297-2302). -/
def macRepeatStep (s : RawStep) : DStep :=
  { is_repeat := true
    repeat_count := some (s.repeat_count.getD 0)
    name := some (.str (toString (s.repeat_count.getD 0 + 1) ++ " Sets"))
    step_type := some "repeat" }

/-- `step.get('duration_type', 'time')` with the mac `open` rewrite
(lines 2319, 2324-2325 and 2335, 2339-2340). -/
def macOpenDur (dt : Option String) : String :=
  if dt = some "open" ∨ dt = some "repeat_until_steps_cmplt" then "open"
  else dt.getD "time"

/-- The rest display step (mac lines 2314-2326). -/
def macRestStep (s : RawStep) : DStep :=
  { is_rest := true
    step_type := some "rest"
    name := some (.str "Rest")
    duration_type := some (macOpenDur s.duration_type)
    rest_seconds := some (s.duration.getD 0)
    duration := some (s.duration.getD 0)
    category := s.category }

/-- The warmup display step (mac lines 2331-2341): note the name is the
step's own name when present, else the hyphenated literal `'Warm-Up'`. -/
def macWarmupStep (s : RawStep) : DStep :=
  { step_type := some "warmup"
    name := some (s.name.getD (.str "Warm-Up"))
    duration_type := some (macOpenDur s.duration_type)
    duration := some (s.duration.getD 0)
    category := s.category }

/-- In-place update of the last element of `exercises` that is neither a
rest nor a repeat entry (mac lines 2304-2308): sets its `sets` to `n + 1`. -/
def setLastSetsAux (n : ℤ) : List DStep → List DStep
  | [] => []
  | e :: t =>
    if e.is_rest = false ∧ e.is_repeat = false then
      { e with sets := some (n + 1) } :: t
    else e :: setLastSetsAux n t

/-- `setLastSetsAux` applied from the end of the list, as the
`for ex in reversed(exercises)` loop does. -/
def setLastSets (n : ℤ) (l : List DStep) : List DStep :=
  (setLastSetsAux n l.reverse).reverse

/-- Mac strength-workout name resolution (lines 2377-2387). -/
def macStrengthName (titles : TitleIndex) (s : RawStep) : FieldValue :=
  match s.name with
  | some v => v
  | none =>
    match s.category with
    | some c =>
      if c = "" then .str "Exercise"
      else
        match List.lookup (c, s.exercise_id) titles.pairs with
        | some v => v
        | none =>
          match List.lookup c titles.cats with
          | some v => v
          | none => .str (pyTitle (pyReplUnd c))
    | none => .str "Exercise"

/-- `if step.get('reps'): exercise['reps'] = step['reps']` (mac line 2390). -/
def copyReps (s : RawStep) (e : DStep) : DStep :=
  match s.reps with
  | some r => if r ≠ 0 then { e with reps := some r } else e
  | none => e

/-- `if step.get('duration'): ...` (mac line 2392, win line 1118). -/
def copyDuration (s : RawStep) (e : DStep) : DStep :=
  match s.duration with
  | some d => if d ≠ 0 then { e with duration := some d } else e
  | none => e

/-- `if step.get('distance'): ...` (mac line 2394, win line 1122). -/
def copyDistance (s : RawStep) (e : DStep) : DStep :=
  match s.distance with
  | some d => if d ≠ 0 then { e with distance := some d } else e
  | none => e

/-- Mac weight formatting (lines 2396-2402): the unlabelled number is shown
as-is, tagged `lbs` when `weight_unit == 'pound'` and `kg` otherwise. -/
def macCopyWeight (s : RawStep) (e : DStep) : DStep :=
  match s.weight with
  | some w =>
    if w ≠ 0 then
      { e with weight := some (if s.weight_unit.getD "kg" = "pound"
          then .lbs w else .kg w) }
    else e
  | none => e

/-- The shared tail of the mac exercise builder (lines 2389-2408): copy
reps/duration/distance, format the weight, and set `sets`, `type` and
`category`. -/
def macTail (s : RawStep) (e : DStep) : DStep :=
  { macCopyWeight s (copyDistance s (copyDuration s (copyReps s e))) with
      sets := some 1
      typ := some (match s.category with
        | some c => pyTitle (pyReplUnd c)
        | none => "")
      category := s.category }

/-- Context of the mac third pass. -/
structure MacCtx where
  sport : Option String := none
  cardio : Bool := false
  titles : TitleIndex := {}
deriving DecidableEq, Repr

/-- The mac exercise-step builder (lines 2345-2410).  In the cardio branch
the source evaluates `workout_data.get('sport', 'exercise').title()` before
anything else; the `'sport'` key is always present (initialised to `None`),
so with no sport recorded this is `None.title()` and raises
`AttributeError`, modelled by `.error`. -/
def macExercise (ctx : MacCtx) (s : RawStep) : Except String DStep :=
  if ctx.cardio then
    match ctx.sport with
    | none => .error "AttributeError"
    | some sp =>
      let sport_name := pyTitle sp
      let nmst : FieldValue × String :=
        match s.intensity with
        | some v =>
          if v = "warmup" ∨ v = "2" then (.str "Warm Up", "warmup")
          else if v = "cooldown" ∨ v = "3" then (.str "Cool Down", "cooldown")
          else if v = "rest" ∨ v = "1" then (.str "Recovery", "rest")
          else (s.notes.getD (.str sport_name), "active")
        | none => (s.notes.getD (.str sport_name), "active")
      let e : DStep := { name := some nmst.1, step_type := some nmst.2 }
      let e := match s.notes with
        | some nv => if nmst.1 ≠ nv then { e with notes := some nv } else e
        | none => e
      let e := match s.notes with
        | some nv => { e with zone := some (.raw nv) }
        | none => e
      .ok (macTail s e)
  else
    .ok (macTail s { name := some (macStrengthName ctx.titles s) })

/-- The mac third pass (lines 2290-2411) over the raw steps, with the
`exercises` accumulator. -/
def macThirdPass (ctx : MacCtx) :
    List RawStep → List DStep → Except String (List DStep)
  | [], acc => .ok acc
  | s :: t, acc =>
    if s.is_repeat then
      let acc' :=
        if !acc.isEmpty && truthyOptInt s.repeat_count then
          setLastSets (s.repeat_count.getD 0) acc
        else acc
      macThirdPass ctx t (acc' ++ [macRepeatStep s])
    else if s.is_rest then macThirdPass ctx t (acc ++ [macRestStep s])
    else if s.is_warmup then macThirdPass ctx t (acc ++ [macWarmupStep s])
    else
      match macExercise ctx s with
      | .ok e => macThirdPass ctx t (acc ++ [e])
      | .error m => .error m

/-- The returned workout dictionary (fields relevant to the claims). -/
structure ParsedWorkout where
  name : FieldValue
  sport : Option String
  sub_sport : Option String
  steps : List DStep
deriving DecidableEq, Repr

/-- Mac `parse_fit_with_fitparse` (lines 2175-2418) on decoded messages.
`.error` models an exception escaping the `try` body, upon which the source
falls back to `parse_fit_basic` (line 2418); `.ok none` is the
`return workout_data if exercises else None` with empty `exercises`. -/
def parse_fit_with_fitparse (d : List FitRecord × List FitRecord ×
    List FitRecord) : Except String (Option ParsedWorkout) :=
  let titles := buildTitles d.1
  let m := workoutMeta d.2.1
  let steps_raw := d.2.2.map macExtractStep
  let cardio := isCardio m.sport m.sub_sport
  match macThirdPass { sport := m.sport, cardio := cardio, titles := titles }
      steps_raw [] with
  | .error e => .error e
  | .ok exs =>
    .ok (if exs.isEmpty then none
      else some { name := m.name, sport := m.sport, sub_sport := m.sub_sport,
                  steps := exs })

/-! ## Win third pass (lines 1051-1149) -/

/-- Context of the win third pass. -/
structure WinCtx where
  sport : Option String := none
  cardio : Bool := false
  titles : TitleIndex := {}
deriving DecidableEq, Repr

/-- Win strength-workout name resolution (lines 1103-1112): as mac, except
the final fallback is `f'Exercise {i + 1}'` with `i` the current raw step
index. -/
def winStrengthName (titles : TitleIndex) (i : ℕ) (s : RawStep) :
    FieldValue :=
  match s.name with
  | some v => v
  | none =>
    match s.category with
    | some c =>
      if c = "" then .str ("Exercise " ++ toString (i + 1))
      else
        match List.lookup (c, s.exercise_id) titles.pairs with
        | some v => v
        | none =>
          match List.lookup c titles.cats with
          | some v => v
          | none => .str (pyTitle (pyReplUnd c))
    | none => .str ("Exercise " ++ toString (i + 1))

/-- Update of `exercises[-1]` (win lines 1060, 1067). -/
def updateLast (f : DStep → DStep) : List DStep → List DStep
  | [] => []
  | [e] => [f e]
  | e :: e' :: rest => e :: updateLast f (e' :: rest)

/-- Win weight formatting (lines 1130-1132): `f"{int(weight)} {unit}"`, the
truncated number with the decoded unit string appended verbatim. -/
def winCopyWeight (s : RawStep) (e : DStep) : DStep :=
  match s.weight with
  | some w =>
    if w ≠ 0 then
      { e with weight := some (.raw (ratTrunc w) (s.weight_unit.getD "kg")) }
    else e
  | none => e

/-- Win target zone formatting (lines 1135-1142). -/
def winCopyZone (s : RawStep) (e : DStep) : DStep :=
  match s.target_type, s.target_value with
  | some tt, some tv =>
    if strContains tt "heart_rate" then { e with zone := some (.hr (pyInt tv)) }
    else if strContains tt "speed" || strContains tt "pace" then
      { e with zone := some (.pace tv) }
    else if strContains tt "power" then { e with zone := some (.power (pyInt tv)) }
    else e
  | _, _ => e

/-- The shared tail of the win exercise builder (lines 1117-1144):
duration/distance/reps, weight, target zone, and `sets = 1`. -/
def winTail (s : RawStep) (e : DStep) : DStep :=
  { winCopyZone s (winCopyWeight s (copyReps s
      (copyDistance s (copyDuration s e)))) with
    sets := some 1 }

/-- The win exercise-step builder (lines 1071-1145).  As in the mac variant,
the cardio branch evaluates `workout_data.get('sport', 'exercise').title()`
first, raising `AttributeError` when no sport was recorded. -/
def winExercise (ctx : WinCtx) (i : ℕ) (s : RawStep) : Except String DStep :=
  if ctx.cardio then
    match ctx.sport with
    | none => .error "AttributeError"
    | some sp =>
      let sport_name := pyTitle sp
      let nmst : FieldValue × String :=
        match s.intensity with
        | some v =>
          if v = "warmup" then (.str "Warm Up", "warmup")
          else if v = "cooldown" then (.str "Cool Down", "cooldown")
          else if v = "rest" then (.str "Recovery", "rest")
          else (s.notes.getD (.str sport_name), "active")
        | none => (s.notes.getD (.str sport_name), "active")
      let e : DStep := { name := some nmst.1, step_type := some nmst.2 }
      let e := match s.notes with
        | some nv => if nmst.1 ≠ nv then { e with notes := some nv } else e
        | none => e
      .ok (winTail s e)
  else
    .ok (winTail s { name := some (winStrengthName ctx.titles i s)
                     typ := s.category.map pyReplUnd })

/-- The win third pass (lines 1051-1146): repeat markers update
`exercises[-1]['sets']` and are dropped; in strength workouts rest steps
attach their duration to `exercises[-1]['rest']` and are dropped; everything
else becomes one exercise entry.  `i` is the raw index `i` of the source's
`while` loop. -/
def winThirdPass (ctx : WinCtx) :
    ℕ → List RawStep → List DStep → Except String (List DStep)
  | _, [], acc => .ok acc
  | i, s :: t, acc =>
    if s.is_repeat then
      let acc' :=
        if !acc.isEmpty && truthyOptInt s.repeat_count then
          updateLast (fun e => { e with sets := some (s.repeat_count.getD 0 + 1) }) acc
        else acc
      winThirdPass ctx (i + 1) t acc'
    else if !ctx.cardio && s.is_rest then
      let acc' :=
        if !acc.isEmpty && truthyOptRat s.duration then
          updateLast (fun e => { e with rest := s.duration }) acc
        else acc
      winThirdPass ctx (i + 1) t acc'
    else
      match winExercise ctx i s with
      | .ok e => winThirdPass ctx (i + 1) t (acc ++ [e])
      | .error m => .error m

/-- Win `parse_fit_with_fitparse` (lines 955-1153) on the decoded
`(exercise_title, workout, workout_step)` messages: the `except` handler
returns `None`; otherwise `workout_data` is always returned, even with empty
steps. -/
def win_parse_fit_with_fitparse (d : List FitRecord × List FitRecord ×
    List FitRecord) : Option ParsedWorkout :=
  let titles := buildTitles d.1
  let m := workoutMeta d.2.1
  let steps_raw := d.2.2.map winExtractStep
  let cardio := isCardio m.sport m.sub_sport
  match winThirdPass { sport := m.sport, cardio := cardio, titles := titles }
      0 steps_raw [] with
  | .error _ => none
  | .ok exs =>
    some { name := m.name, sport := m.sport, sub_sport := m.sub_sport
           steps := exs }

/-! ## Preview processing (`process_steps_for_preview`, mac lines 1525-1577)

Folds the flat display-step list into the hierarchical preview: the
3-element window `[exercise, rest, repeat]` becomes one repeat header with
the two steps nested under it; unmatched repeat markers are dropped. -/

/-- An entry of the processed preview list, tagged with the `display_type`
that the source sets on the copied dictionaries. -/
inductive PreviewEntry where
  | repeat_header : ℤ → String → PreviewEntry
  | nested_exercise : DStep → PreviewEntry
  | nested_rest : DStep → PreviewEntry
  | regular : DStep → PreviewEntry
deriving DecidableEq, Repr

/-- The rest test of the lookahead
(`next_step.get('is_rest') or next_step.get('step_type') == 'rest'`). -/
def previewRestish (n : DStep) : Bool :=
  n.is_rest || n.step_type == some "rest"

/-- `process_steps_for_preview` (mac lines 1525-1577). -/
def process_steps_for_preview : List DStep → List PreviewEntry
  | [] => []
  | [s] => if s.is_repeat then [] else [.regular s]
  | [s, n] =>
    if s.is_repeat then process_steps_for_preview [n]
    else .regular s :: process_steps_for_preview [n]
  | s :: n :: a :: t2 =>
    if previewRestish n && a.is_repeat then
      let rc := a.repeat_count.getD 0 + 1
      .repeat_header rc (toString rc ++ " Sets") ::
        .nested_exercise s :: .nested_rest n ::
        process_steps_for_preview t2
    else if s.is_repeat then process_steps_for_preview (n :: a :: t2)
    else .regular s :: process_steps_for_preview (n :: a :: t2)

/-! ## Theorems about the preview fold and third passes -/

lemma previewRestish_false {ex : DStep} (h2 : ex.is_rest = false)
    (h3 : ex.step_type ≠ some "rest") : previewRestish ex = false := by
  simp only [previewRestish, h2, Bool.false_or]
  rw [beq_eq_false_iff_ne]
  exact h3

lemma psp_nil : process_steps_for_preview [] = [] := rfl

lemma psp_one (s : DStep) :
    process_steps_for_preview [s] =
      (if s.is_repeat then [] else [.regular s]) := rfl

lemma psp_two (s n : DStep) :
    process_steps_for_preview [s, n] =
      (if s.is_repeat then [] else [.regular s]) ++
        process_steps_for_preview [n] := by
  by_cases hs : s.is_repeat = true
  · simp [process_steps_for_preview, hs]
  · simp only [Bool.not_eq_true] at hs
    simp [process_steps_for_preview, hs]

lemma psp_cons3_pos (s n a : DStep) (t2 : List DStep)
    (h : (previewRestish n && a.is_repeat) = true) :
    process_steps_for_preview (s :: n :: a :: t2) =
      PreviewEntry.repeat_header (a.repeat_count.getD 0 + 1)
          (toString (a.repeat_count.getD 0 + 1) ++ " Sets") ::
        PreviewEntry.nested_exercise s :: PreviewEntry.nested_rest n ::
        process_steps_for_preview t2 := by
  simp [process_steps_for_preview, h]

lemma psp_cons3_neg (s n a : DStep) (t2 : List DStep)
    (h : (previewRestish n && a.is_repeat) = false) :
    process_steps_for_preview (s :: n :: a :: t2) =
      (if s.is_repeat then [] else [.regular s]) ++
        process_steps_for_preview (n :: a :: t2) := by
  by_cases hs : s.is_repeat = true
  · simp [process_steps_for_preview, h, hs]
  · simp only [Bool.not_eq_true] at hs
    simp [process_steps_for_preview, h, hs]

lemma preview_fold_aux :
    ∀ (N : ℕ) (pre post : List DStep) (ex rs rp : DStep),
      pre.length ≤ N →
      ex.is_repeat = false → ex.is_rest = false →
      ex.step_type ≠ some "rest" →
      previewRestish rs = true → rp.is_repeat = true →
      process_steps_for_preview (pre ++ ex :: rs :: rp :: post) =
        process_steps_for_preview pre ++
          PreviewEntry.repeat_header (rp.repeat_count.getD 0 + 1)
              (toString (rp.repeat_count.getD 0 + 1) ++ " Sets") ::
            PreviewEntry.nested_exercise ex ::
            PreviewEntry.nested_rest rs ::
            process_steps_for_preview post := by
  intro N
  induction N with
  | zero =>
    intro pre post ex rs rp hlen h1 h2 h3 h4 h5
    have hpre : pre = [] := List.length_eq_zero.mp (Nat.le_zero.mp hlen)
    subst hpre
    have hc : (previewRestish rs && rp.is_repeat) = true := by
      rw [h4, h5]
      rfl
    rw [List.nil_append, psp_cons3_pos ex rs rp post hc, psp_nil,
      List.nil_append]
  | succ N ih =>
    intro pre post ex rs rp hlen h1 h2 h3 h4 h5
    have hexr : previewRestish ex = false := previewRestish_false h2 h3
    have hc : (previewRestish rs && rp.is_repeat) = true := by
      rw [h4, h5]
      rfl
    match pre with
    | [] =>
      rw [List.nil_append, psp_cons3_pos ex rs rp post hc, psp_nil,
        List.nil_append]
    | [a] =>
      have hc1 : (previewRestish ex && rs.is_repeat) = false := by
        rw [hexr]
        rfl
      have heq := ih [] post ex rs rp (by simp) h1 h2 h3 h4 h5
      simp only [psp_nil, List.nil_append] at heq
      simp only [List.cons_append, List.nil_append]
      rw [psp_cons3_neg a ex rs (rp :: post) hc1, heq, psp_one]
    | [a, b] =>
      have hc1 : (previewRestish b && ex.is_repeat) = false := by
        rw [h1, Bool.and_false]
      have hN : 1 ≤ N := by
        simp only [List.length_cons, List.length_nil] at hlen
        omega
      have heq := ih [b] post ex rs rp (by simpa using hN) h1 h2 h3 h4 h5
      simp only [List.cons_append, List.nil_append] at heq
      simp only [List.cons_append, List.nil_append]
      rw [psp_cons3_neg a b ex (rs :: rp :: post) hc1, heq, psp_two,
        List.append_assoc]
    | a :: b :: c :: pre4 =>
      have hlen4 : pre4.length + 3 ≤ N + 1 := by
        simpa [List.length_cons] using hlen
      cases hm : (previewRestish b && c.is_repeat) with
      | true =>
        have heq := ih pre4 post ex rs rp (by omega) h1 h2 h3 h4 h5
        simp only [List.cons_append]
        rw [psp_cons3_pos a b c (pre4 ++ ex :: rs :: rp :: post) hm, heq,
          psp_cons3_pos a b c pre4 hm]
        simp
      | false =>
        have heq := ih (b :: c :: pre4) post ex rs rp
          (by simp only [List.length_cons]; omega) h1 h2 h3 h4 h5
        simp only [List.cons_append] at heq
        simp only [List.cons_append]
        rw [psp_cons3_neg a b c (pre4 ++ ex :: rs :: rp :: post) hm, heq,
          psp_cons3_neg a b c pre4 hm, List.append_assoc]

/-- Claim C2: whenever the flat step list contains the contiguous pattern
`exercise :: rest :: repeat-marker` (the exercise being neither a rest nor a
repeat entry, the marker carrying `repeat_count = n`), the preview builder
emits at that position exactly one repeat header with count `n + 1` wrapping
the exercise and the rest as nested children, and no standalone (`regular`)
entry for any of the three steps. -/
theorem process_steps_for_preview_repeat_fold
    (pre post : List DStep) (ex rs rp : DStep) (n : ℤ)
    (h1 : ex.is_repeat = false) (h2 : ex.is_rest = false)
    (h3 : ex.step_type ≠ some "rest")
    (h4 : previewRestish rs = true) (h5 : rp.is_repeat = true)
    (h6 : rp.repeat_count = some n) :
    process_steps_for_preview (pre ++ ex :: rs :: rp :: post) =
      process_steps_for_preview pre ++
        PreviewEntry.repeat_header (n + 1) (toString (n + 1) ++ " Sets") ::
          PreviewEntry.nested_exercise ex ::
          PreviewEntry.nested_rest rs ::
          process_steps_for_preview post := by
  have h := preview_fold_aux pre.length pre post ex rs rp le_rfl h1 h2 h3 h4 h5
  rw [h6] at h
  simpa using h

/-- Witness for C2 at a concrete input: one exercise, a 10-second rest and a
marker with `repeat_count = 2` fold into a single `3 Sets` repeat header with
the two nested children. -/
theorem process_steps_for_preview_repeat_fold_witness :
    process_steps_for_preview
        [{ name := some (.str "Squat"), sets := some 1 },
         { is_rest := true, step_type := some "rest",
           rest_seconds := some 10 },
         { is_repeat := true, repeat_count := some 2,
           step_type := some "repeat" }] =
      [PreviewEntry.repeat_header 3 "3 Sets",
       PreviewEntry.nested_exercise
         { name := some (.str "Squat"), sets := some 1 },
       PreviewEntry.nested_rest
         { is_rest := true, step_type := some "rest",
           rest_seconds := some 10 }] := by
  have h := process_steps_for_preview_repeat_fold [] []
    { name := some (.str "Squat"), sets := some 1 }
    { is_rest := true, step_type := some "rest", rest_seconds := some 10 }
    { is_repeat := true, repeat_count := some 2, step_type := some "repeat" }
    2 rfl rfl (by simp) (by rfl) rfl rfl
  simpa using h

/-- Claim C10: when the fitparse pass extracts zero workout steps, the mac
`parse_fit_with_fitparse` returns `None` (here `.ok none`) rather than a
workout dictionary with an empty step list; and it never returns a workout
with an empty step list on any input. -/
theorem parse_fit_with_fitparse_empty_null
    (d : List FitRecord × List FitRecord × List FitRecord)
    (h : d.2.2 = []) :
    parse_fit_with_fitparse d = .ok none ∧
    (∀ (d' : List FitRecord × List FitRecord × List FitRecord)
      (w : ParsedWorkout),
      parse_fit_with_fitparse d' = .ok (some w) → w.steps ≠ []) := by
  constructor
  · simp [parse_fit_with_fitparse, h, macThirdPass]
  · intro d' w hw
    simp only [parse_fit_with_fitparse] at hw
    split at hw
    · exact absurd hw (by simp)
    · rename_i exs hexs
      rw [Except.ok.injEq] at hw
      by_cases he : exs.isEmpty
      · rw [if_pos he] at hw
        exact absurd hw (by simp)
      · rw [if_neg he] at hw
        simp only [Except.ok.injEq, Option.some.injEq] at hw
        intro hnil
        rw [← hw] at hnil
        have hexnil : exs = [] := hnil
        rw [hexnil] at he
        exact he rfl

/-- Witness for C10: the empty message triple parses to `.ok none`. -/
theorem parse_fit_with_fitparse_empty_null_witness :
    parse_fit_with_fitparse ([], [], []) = .ok none :=
  (parse_fit_with_fitparse_empty_null ([], [], []) rfl).1

/-! ## Projection lemmas for the exercise-builder tails -/

lemma copyReps_name (s : RawStep) (e : DStep) : (copyReps s e).name = e.name := by
  unfold copyReps
  cases s.reps
  · rfl
  · rename_i r
    dsimp only
    split_ifs <;> rfl

lemma copyDuration_name (s : RawStep) (e : DStep) :
    (copyDuration s e).name = e.name := by
  unfold copyDuration
  cases s.duration
  · rfl
  · rename_i d
    dsimp only
    split_ifs <;> rfl

lemma copyDistance_name (s : RawStep) (e : DStep) :
    (copyDistance s e).name = e.name := by
  unfold copyDistance
  cases s.distance
  · rfl
  · rename_i d
    dsimp only
    split_ifs <;> rfl

lemma macCopyWeight_name (s : RawStep) (e : DStep) :
    (macCopyWeight s e).name = e.name := by
  unfold macCopyWeight
  cases s.weight
  · rfl
  · rename_i w
    dsimp only
    split_ifs <;> rfl

lemma winCopyWeight_name (s : RawStep) (e : DStep) :
    (winCopyWeight s e).name = e.name := by
  unfold winCopyWeight
  cases s.weight
  · rfl
  · rename_i w
    dsimp only
    split_ifs <;> rfl

lemma winCopyZone_name (s : RawStep) (e : DStep) :
    (winCopyZone s e).name = e.name := by
  unfold winCopyZone
  cases s.target_type <;> cases s.target_value
  · rfl
  · rfl
  · rfl
  · dsimp only
    split_ifs <;> rfl

lemma copyReps_step_type (s : RawStep) (e : DStep) :
    (copyReps s e).step_type = e.step_type := by
  unfold copyReps
  cases s.reps
  · rfl
  · rename_i r
    dsimp only
    split_ifs <;> rfl

lemma copyDuration_step_type (s : RawStep) (e : DStep) :
    (copyDuration s e).step_type = e.step_type := by
  unfold copyDuration
  cases s.duration
  · rfl
  · rename_i d
    dsimp only
    split_ifs <;> rfl

lemma copyDistance_step_type (s : RawStep) (e : DStep) :
    (copyDistance s e).step_type = e.step_type := by
  unfold copyDistance
  cases s.distance
  · rfl
  · rename_i d
    dsimp only
    split_ifs <;> rfl

lemma winCopyWeight_step_type (s : RawStep) (e : DStep) :
    (winCopyWeight s e).step_type = e.step_type := by
  unfold winCopyWeight
  cases s.weight
  · rfl
  · rename_i w
    dsimp only
    split_ifs <;> rfl

lemma winCopyZone_step_type (s : RawStep) (e : DStep) :
    (winCopyZone s e).step_type = e.step_type := by
  unfold winCopyZone
  cases s.target_type <;> cases s.target_value
  · rfl
  · rfl
  · rfl
  · dsimp only
    split_ifs <;> rfl

lemma copyReps_weight (s : RawStep) (e : DStep) :
    (copyReps s e).weight = e.weight := by
  unfold copyReps
  cases s.reps
  · rfl
  · rename_i r
    dsimp only
    split_ifs <;> rfl

lemma copyDuration_weight (s : RawStep) (e : DStep) :
    (copyDuration s e).weight = e.weight := by
  unfold copyDuration
  cases s.duration
  · rfl
  · rename_i d
    dsimp only
    split_ifs <;> rfl

lemma copyDistance_weight (s : RawStep) (e : DStep) :
    (copyDistance s e).weight = e.weight := by
  unfold copyDistance
  cases s.distance
  · rfl
  · rename_i d
    dsimp only
    split_ifs <;> rfl

lemma winCopyZone_weight (s : RawStep) (e : DStep) :
    (winCopyZone s e).weight = e.weight := by
  unfold winCopyZone
  cases s.target_type <;> cases s.target_value
  · rfl
  · rfl
  · rfl
  · dsimp only
    split_ifs <;> rfl

lemma macCopyWeight_weight (s : RawStep) (e : DStep) (w : ℚ)
    (hw : s.weight = some w) (hnz : w ≠ 0) :
    (macCopyWeight s e).weight =
      some (if s.weight_unit.getD "kg" = "pound" then .lbs w else .kg w) := by
  unfold macCopyWeight
  rw [hw]
  dsimp only
  rw [if_pos hnz]

lemma winCopyWeight_weight (s : RawStep) (e : DStep) (w : ℚ)
    (hw : s.weight = some w) (hnz : w ≠ 0) :
    (winCopyWeight s e).weight =
      some (.raw (ratTrunc w) (s.weight_unit.getD "kg")) := by
  unfold winCopyWeight
  rw [hw]
  dsimp only
  rw [if_pos hnz]

lemma macTail_name (s : RawStep) (e : DStep) :
    (macTail s e).name = e.name := by
  unfold macTail
  show (macCopyWeight s (copyDistance s (copyDuration s (copyReps s e)))).name
    = e.name
  rw [macCopyWeight_name, copyDistance_name, copyDuration_name, copyReps_name]

lemma macTail_weight (s : RawStep) (e : DStep) (w : ℚ)
    (hw : s.weight = some w) (hnz : w ≠ 0) :
    (macTail s e).weight =
      some (if s.weight_unit.getD "kg" = "pound" then .lbs w else .kg w) := by
  unfold macTail
  show (macCopyWeight s (copyDistance s (copyDuration s (copyReps s e)))).weight
    = _
  rw [macCopyWeight_weight _ _ w hw hnz]

lemma winTail_name (s : RawStep) (e : DStep) :
    (winTail s e).name = e.name := by
  unfold winTail
  show (winCopyZone s (winCopyWeight s (copyReps s
      (copyDistance s (copyDuration s e))))).name = e.name
  rw [winCopyZone_name, winCopyWeight_name, copyReps_name, copyDistance_name,
    copyDuration_name]

lemma winTail_step_type (s : RawStep) (e : DStep) :
    (winTail s e).step_type = e.step_type := by
  unfold winTail
  show (winCopyZone s (winCopyWeight s (copyReps s
      (copyDistance s (copyDuration s e))))).step_type = e.step_type
  rw [winCopyZone_step_type, winCopyWeight_step_type, copyReps_step_type,
    copyDistance_step_type, copyDuration_step_type]

lemma winTail_weight (s : RawStep) (e : DStep) (w : ℚ)
    (hw : s.weight = some w) (hnz : w ≠ 0) :
    (winTail s e).weight =
      some (.raw (ratTrunc w) (s.weight_unit.getD "kg")) := by
  unfold winTail
  show (winCopyZone s (winCopyWeight s (copyReps s
      (copyDistance s (copyDuration s e))))).weight = _
  rw [winCopyZone_weight, winCopyWeight_weight _ _ w hw hnz]

/-! ## Repeat-marker consumption (claim C3) -/

lemma setLastSetsAux_spec (n : ℤ) :
    ∀ (r : List DStep),
      (∃ e ∈ r, e.is_rest = false ∧ e.is_repeat = false) →
      ∃ r1 e r2, r = r1 ++ e :: r2 ∧
        (∀ x ∈ r1, ¬(x.is_rest = false ∧ x.is_repeat = false)) ∧
        e.is_rest = false ∧ e.is_repeat = false ∧
        setLastSetsAux n r = r1 ++ ({ e with sets := some (n + 1) }) :: r2 := by
  intro r
  induction r with
  | nil =>
    rintro ⟨e, he, _⟩
    exact absurd he (List.not_mem_nil e)
  | cons a t ih =>
    intro h
    by_cases ha : a.is_rest = false ∧ a.is_repeat = false
    · refine ⟨[], a, t, rfl, by simp, ha.1, ha.2, ?_⟩
      simp [setLastSetsAux, ha]
    · have h' : ∃ e ∈ t, e.is_rest = false ∧ e.is_repeat = false := by
        rcases h with ⟨e, he, hee⟩
        rcases List.mem_cons.mp he with rfl | het
        · exact absurd hee ha
        · exact ⟨e, het, hee⟩
      rcases ih h' with ⟨r1, e, r2, hr, hall, he1, he2, hset⟩
      refine ⟨a :: r1, e, r2, by rw [hr, List.cons_append], ?_, he1, he2, ?_⟩
      · intro x hx
        rcases List.mem_cons.mp hx with rfl | hx1
        · exact ha
        · exact hall x hx1
      · simp only [setLastSetsAux, ha, if_false, List.cons_append]
        rw [hset]

lemma bool_not_both_false {x : DStep}
    (hx : ¬(x.is_rest = false ∧ x.is_repeat = false)) :
    x.is_rest = true ∨ x.is_repeat = true := by
  cases hr : x.is_rest
  · cases hp : x.is_repeat
    · exact absurd ⟨hr, hp⟩ hx
    · exact Or.inr rfl
  · exact Or.inl rfl

lemma setLastSets_spec (n : ℤ) (l : List DStep)
    (h : ∃ e ∈ l, e.is_rest = false ∧ e.is_repeat = false) :
    ∃ l1 e l2, l = l1 ++ e :: l2 ∧
      (∀ x ∈ l2, x.is_rest = true ∨ x.is_repeat = true) ∧
      e.is_rest = false ∧ e.is_repeat = false ∧
      setLastSets n l = l1 ++ ({ e with sets := some (n + 1) }) :: l2 := by
  have h' : ∃ e ∈ l.reverse, e.is_rest = false ∧ e.is_repeat = false := by
    simpa using h
  rcases setLastSetsAux_spec n l.reverse h' with
    ⟨r1, e, r2, hr, hall, he1, he2, hset⟩
  refine ⟨r2.reverse, e, r1.reverse, ?_, ?_, he1, he2, ?_⟩
  · have h1 := congrArg List.reverse hr
    rw [List.reverse_reverse] at h1
    rw [h1]
    simp [List.reverse_append]
  · intro x hx
    have hx' : x ∈ r1 := by simpa using hx
    exact bool_not_both_false (hall x hx')
  · rw [setLastSets, hset]
    simp [List.reverse_append]

lemma psp_regular_not_repeat_aux :
    ∀ (N : ℕ) (l : List DStep) (e : DStep), l.length ≤ N →
      PreviewEntry.regular e ∈ process_steps_for_preview l →
      e.is_repeat = false := by
  intro N
  induction N with
  | zero =>
    intro l e hl hm
    have hnil : l = [] := List.length_eq_zero.mp (Nat.le_zero.mp hl)
    subst hnil
    simp [psp_nil] at hm
  | succ N ih =>
    intro l e hl hm
    match l with
    | [] => simp [psp_nil] at hm
    | [s] =>
      rw [psp_one] at hm
      by_cases hs : s.is_repeat = true
      · rw [if_pos hs] at hm
        exact absurd hm (List.not_mem_nil _)
      · rw [if_neg hs] at hm
        have heq := List.mem_singleton.mp hm
        injection heq with he
        subst he
        simpa using hs
    | [s, nn] =>
      rw [psp_two] at hm
      rcases List.mem_append.mp hm with hm1 | hm2
      · by_cases hs : s.is_repeat = true
        · rw [if_pos hs] at hm1
          exact absurd hm1 (List.not_mem_nil _)
        · rw [if_neg hs] at hm1
          have heq := List.mem_singleton.mp hm1
          injection heq with he
          subst he
          simpa using hs
      · have hN : 1 ≤ N := by
          simp only [List.length_cons, List.length_nil] at hl
          omega
        exact ih [nn] e (by simpa using hN) hm2
    | s :: nn :: a :: t2 =>
      have hl3 : t2.length + 3 ≤ N + 1 := by simpa using hl
      cases hc : (previewRestish nn && a.is_repeat) with
      | true =>
        rw [psp_cons3_pos _ _ _ _ hc] at hm
        rcases List.mem_cons.mp hm with h1 | hm
        · exact absurd h1 (by simp)
        rcases List.mem_cons.mp hm with h2 | hm
        · exact absurd h2 (by simp)
        rcases List.mem_cons.mp hm with h3 | hm
        · exact absurd h3 (by simp)
        exact ih t2 e (by omega) hm
      | false =>
        rw [psp_cons3_neg _ _ _ _ hc] at hm
        rcases List.mem_append.mp hm with hm1 | hm2
        · by_cases hs : s.is_repeat = true
          · rw [if_pos hs] at hm1
            exact absurd hm1 (List.not_mem_nil _)
          · rw [if_neg hs] at hm1
            have heq := List.mem_singleton.mp hm1
            injection heq with he
            subst he
            simpa using hs
        · exact ih (nn :: a :: t2) e
            (by simp only [List.length_cons]; omega) hm2

lemma psp_regular_not_repeat (l : List DStep) (e : DStep)
    (h : PreviewEntry.regular e ∈ process_steps_for_preview l) :
    e.is_repeat = false :=
  psp_regular_not_repeat_aux l.length l e le_rfl h

/-- The raw `workout_step` records of the zero-count repeat-marker scenario:
a reps exercise, a marker with `repeat_steps = 5`, then a marker decoded
from `duration_type = repeat_until_steps_cmplt` with `duration_value = 0`
(hence `repeat_count = 0`). -/
def c3ExRec : FitRecord :=
  [("wkt_step_name", .str "Push Up"), ("duration_reps", .int 10)]

def c3Rep5Rec : FitRecord := [("repeat_steps", .int 5)]

def c3Rep0Rec : FitRecord :=
  [("duration_type", .str "repeat_until_steps_cmplt"),
   ("duration_value", .int 0)]

/-- Counterexample to C3 as stated: the final raw step is a repeat marker
with `repeat_count = 0` that matches no lookahead pattern, yet the most
recently emitted non-rest, non-repeat step keeps `sets = 6` (set by the
previous marker) instead of being set to `repeat_count + 1 = 1`: the code
only updates `sets` when `step.get('repeat_count')` is truthy, i.e.
nonzero. -/
theorem repeat_marker_zero_count_cex :
    (macExtractStep c3Rep0Rec).is_repeat = true ∧
    (macExtractStep c3Rep0Rec).repeat_count = some 0 ∧
    (parse_fit_with_fitparse ([], [], [c3ExRec, c3Rep5Rec, c3Rep0Rec])).map
        (Option.map (fun w => w.steps.map (fun e => (e.is_repeat, e.sets)))) =
      .ok (some [(false, some 6), (true, none), (true, none)]) ∧
    (6 : ℤ) ≠ (0 : ℤ) + 1 :=
  ⟨rfl, rfl, rfl, by decide⟩

/-- Claim C3 (amended): repeat markers are always consumed by the third
pass; a marker whose `repeat_count` is present and nonzero additionally sets
the `sets` of the most recently emitted non-rest, non-repeat display step to
`repeat_count + 1` (markers with an absent or zero `repeat_count` leave all
`sets` unchanged); the marker itself is appended as a repeat display entry
used only for grouped display, and the preview model never renders a repeat
marker as a standalone (`regular`) entry. -/
theorem macThirdPass_repeat_marker_behavior (ctx : MacCtx) (m : RawStep)
    (t : List RawStep) (acc : List DStep) (n : ℤ)
    (hm : m.is_repeat = true) (hn : m.repeat_count = some n) (hnz : n ≠ 0)
    (hex : ∃ e ∈ acc, e.is_rest = false ∧ e.is_repeat = false) :
    (macThirdPass ctx (m :: t) acc =
      macThirdPass ctx t (setLastSets n acc ++ [macRepeatStep m])) ∧
    (∃ l1 e l2, acc = l1 ++ e :: l2 ∧
      (∀ x ∈ l2, x.is_rest = true ∨ x.is_repeat = true) ∧
      e.is_rest = false ∧ e.is_repeat = false ∧
      setLastSets n acc = l1 ++ ({ e with sets := some (n + 1) }) :: l2) ∧
    (∀ (m' : RawStep) (t' : List RawStep) (acc' : List DStep),
      m'.is_repeat = true →
      (m'.repeat_count = none ∨ m'.repeat_count = some 0) →
      macThirdPass ctx (m' :: t') acc' =
        macThirdPass ctx t' (acc' ++ [macRepeatStep m'])) ∧
    (∀ (l : List DStep) (e : DStep),
      PreviewEntry.regular e ∈ process_steps_for_preview l →
      e.is_repeat = false) := by
  refine ⟨?_, setLastSets_spec n acc hex, ?_, psp_regular_not_repeat⟩
  · have hne : acc ≠ [] := by
      rcases hex with ⟨e, he, _⟩
      exact List.ne_nil_of_mem he
    have hie : acc.isEmpty = false := by
      cases acc with
      | nil => exact absurd rfl hne
      | cons a t => rfl
    simp only [macThirdPass, hm, if_true, hie, hn, truthyOptInt,
      Option.getD_some, Bool.not_false, Bool.true_and]
    simp [hnz]
  · intro m' t' acc' hm' hrc
    have hcond : (!acc'.isEmpty && truthyOptInt m'.repeat_count) = false := by
      rcases hrc with h | h <;> simp [h, truthyOptInt]
    simp only [macThirdPass, hm', if_true, hcond, Bool.false_eq_true,
      if_false]

/-- A display step standing for an already-emitted exercise. -/
def c3AccStep : DStep := { name := some (.str "Bench"), sets := some 1 }

/-- Witness for the amended C3 at a concrete input: a nonzero marker
(`repeat_steps = 5`) following one exercise entry steps the third pass into
the `setLastSets` update. -/
theorem macThirdPass_repeat_marker_behavior_witness :
    macThirdPass {} [macExtractStep c3Rep5Rec] [c3AccStep] =
      macThirdPass {} []
        (setLastSets 5 [c3AccStep] ++ [macRepeatStep (macExtractStep c3Rep5Rec)]) :=
  (macThirdPass_repeat_marker_behavior {} (macExtractStep c3Rep5Rec) []
    [c3AccStep] 5 rfl rfl (by decide) ⟨c3AccStep, by simp, rfl, rfl⟩).1

/-! ## Warmup step naming (claim C4) -/

/-- A cardio `workout_step` with warmup intensity and a notes field. -/
def c4StepRec : FitRecord :=
  [("intensity", .str "warmup"), ("duration_time", .float 600),
   ("notes", .str "easy jog")]

/-- The `workout` message declaring `sport = running`. -/
def c4WorkoutRec : FitRecord := [("sport", .str "running")]

/-- Counterexample to C4 as stated: in the mac variant a running workout's
warmup-intensity step is consumed by the standalone warmup branch (lines
2330-2343), which names it `'Warm-Up'` (hyphenated; or the step's own name),
so the display name is not the claimed `'Warm Up'`; the claimed cardio
branch (lines 2356-2359) is unreachable for warmup intensities because
`is_warmup` is set exactly when the intensity decodes to warmup. -/
theorem mac_warmup_name_cex :
    (parse_fit_with_fitparse ([], [c4WorkoutRec], [c4StepRec])).map
        (Option.map (fun w => w.steps.map (fun e => (e.name, e.step_type)))) =
      .ok (some [(some (.str "Warm-Up"), some "warmup")]) ∧
    FieldValue.str "Warm-Up" ≠ FieldValue.str "Warm Up" :=
  ⟨rfl, by decide⟩

/-- Claim C4 (amended): a warmup step's `step_type` is `'warmup'` in both
variants, regardless of any notes; but the display name differs by variant:
the mac third pass consumes every warmup-flagged step (cardio or not) in its
standalone warmup branch, naming it by the step's own `wkt_step_name` when
present and the hyphenated literal `'Warm-Up'` otherwise, while the win
variant's cardio branch names a warmup-intensity step exactly `'Warm Up'`
independently of the notes field. -/
theorem warmup_step_naming (ctx : MacCtx) (wctx : WinCtx) (s s' : RawStep)
    (t t' : List RawStep) (acc acc' : List DStep) (sp : String) (i : ℕ)
    (h1 : s.is_repeat = false) (h2 : s.is_rest = false)
    (h3 : s.is_warmup = true)
    (h4 : wctx.cardio = true) (h5 : wctx.sport = some sp)
    (h6 : s'.intensity = some "warmup") (h7 : s'.is_repeat = false) :
    (macThirdPass ctx (s :: t) acc =
      macThirdPass ctx t (acc ++ [macWarmupStep s])) ∧
    (macWarmupStep s).step_type = some "warmup" ∧
    (macWarmupStep s).name = some (s.name.getD (.str "Warm-Up")) ∧
    (∃ e, winExercise wctx i s' = .ok e ∧
      winThirdPass wctx i (s' :: t') acc' =
        winThirdPass wctx (i + 1) t' (acc' ++ [e]) ∧
      e.name = some (.str "Warm Up") ∧ e.step_type = some "warmup") := by
  refine ⟨?_, rfl, rfl, ?_⟩
  · simp only [macThirdPass, h1, h2, h3, Bool.false_eq_true, if_false,
      if_true]
  · have hwe : ∃ eb : DStep, winExercise wctx i s' = .ok (winTail s' eb) ∧
        eb.name = some (.str "Warm Up") ∧ eb.step_type = some "warmup" := by
      unfold winExercise
      rw [h4, if_pos rfl, h5]
      dsimp only
      rw [h6]
      dsimp only
      rw [if_pos rfl]
      cases s'.notes with
      | none => exact ⟨_, rfl, rfl, rfl⟩
      | some nv =>
        dsimp only
        by_cases hnv : (FieldValue.str "Warm Up") ≠ nv
        · rw [if_pos hnv]
          exact ⟨_, rfl, rfl, rfl⟩
        · rw [if_neg hnv]
          exact ⟨_, rfl, rfl, rfl⟩
    rcases hwe with ⟨eb, hok, hnm, hst⟩
    refine ⟨winTail s' eb, hok, ?_, ?_, ?_⟩
    · simp only [winThirdPass, h7, Bool.false_eq_true, if_false, h4,
        Bool.not_true, Bool.false_and, hok]
    · rw [winTail_name, hnm]
    · rw [winTail_step_type, hst]

/-- Witness for the amended C4 at concrete inputs: a bare warmup-intensity
step in both variants. -/
theorem warmup_step_naming_witness :
    macThirdPass {} [macExtractStep [("intensity", FieldValue.str "warmup")]]
        [] =
      macThirdPass {} []
        ([] ++ [macWarmupStep
          (macExtractStep [("intensity", FieldValue.str "warmup")])]) ∧
    (macWarmupStep (macExtractStep [("intensity", FieldValue.str "warmup")])).name
      = some (.str "Warm-Up") := by
  have h := warmup_step_naming {} { cardio := true, sport := some "running" }
    (macExtractStep [("intensity", FieldValue.str "warmup")])
    (winExtractStep [("intensity", FieldValue.str "warmup")])
    [] [] [] [] "running" 0 rfl rfl rfl rfl rfl rfl rfl
  exact ⟨h.1, h.2.2.1⟩

/-! ## Strength name resolution (claim C5) -/

/-- Counterexample to C5 as stated: a field-less step of a win strength
workout at raw index 0 is named `'Exercise 1'` (the win fallback is
`f'Exercise {i + 1}'`), not the claimed literal `'Exercise'`. -/
theorem win_strength_fallback_cex :
    (win_parse_fit_with_fitparse ([], [[("sport", FieldValue.str "training")]],
        [[]])).map (fun w => w.steps.map (fun e => e.name)) =
      some [some (.str "Exercise 1")] ∧
    FieldValue.str "Exercise 1" ≠ FieldValue.str "Exercise" :=
  ⟨rfl, by decide⟩

/-- Claim C5 (amended): for strength (non-cardio) steps, both variants
resolve the display name in the priority order (1) the step's own
`wkt_step_name`, (2) the title-index entry for the `(category, exercise_id)`
pair, (3) the title-index entry for the bare category, (4) the category code
with underscores replaced by spaces and title-cased; the final fallback is
the literal `'Exercise'` in the mac variant but `'Exercise N'` (with `N` the
1-based raw step index) in the win variant. -/
theorem strength_name_priority (ctx : MacCtx) (wctx : WinCtx) (s : RawStep)
    (i : ℕ) (hmac : ctx.cardio = false) (hwin : wctx.cardio = false) :
    (∃ e, macExercise ctx s = Except.ok e ∧
      e.name = some (macStrengthName ctx.titles s)) ∧
    (∃ e, winExercise wctx i s = Except.ok e ∧
      e.name = some (winStrengthName wctx.titles i s)) ∧
    (∀ (titles : TitleIndex) (v : FieldValue), s.name = some v →
      macStrengthName titles s = v ∧ winStrengthName titles i s = v) ∧
    (∀ (titles : TitleIndex) (c : String) (v : FieldValue),
      s.name = none → s.category = some c → c ≠ "" →
      List.lookup (c, s.exercise_id) titles.pairs = some v →
      macStrengthName titles s = v) ∧
    (∀ (titles : TitleIndex) (c : String) (v : FieldValue),
      s.name = none → s.category = some c → c ≠ "" →
      List.lookup (c, s.exercise_id) titles.pairs = none →
      List.lookup c titles.cats = some v →
      macStrengthName titles s = v) ∧
    (∀ (titles : TitleIndex) (c : String),
      s.name = none → s.category = some c → c ≠ "" →
      List.lookup (c, s.exercise_id) titles.pairs = none →
      List.lookup c titles.cats = none →
      macStrengthName titles s = .str (pyTitle (pyReplUnd c))) ∧
    (s.name = none → s.category = none →
      macStrengthName ctx.titles s = .str "Exercise" ∧
      winStrengthName wctx.titles i s = .str ("Exercise " ++ toString (i + 1))) ∧
    (∀ (titles : TitleIndex),
      (s.name.isSome ∨ ∃ c, s.category = some c ∧ c ≠ "") →
      winStrengthName titles i s = macStrengthName titles s) := by
  refine ⟨?_, ?_, ?_, ?_, ?_, ?_, ?_, ?_⟩
  · refine ⟨macTail s { name := some (macStrengthName ctx.titles s) }, ?_, ?_⟩
    · unfold macExercise
      rw [hmac]
      rfl
    · rw [macTail_name]
  · have hbase :
        winExercise wctx i s =
          Except.ok (winTail s
            { name := some (winStrengthName wctx.titles i s),
              typ := s.category.map pyReplUnd }) := by
      unfold winExercise
      rw [hwin]
      rfl
    exact ⟨_, hbase, by rw [winTail_name]⟩
  · intro titles v hv
    unfold macStrengthName winStrengthName
    rw [hv]
    exact ⟨rfl, rfl⟩
  · intro titles c v hn hc hce hp
    unfold macStrengthName
    rw [hn, hc]
    dsimp only
    rw [if_neg hce, hp]
  · intro titles c v hn hc hce hp hcat
    unfold macStrengthName
    rw [hn, hc]
    dsimp only
    rw [if_neg hce, hp, hcat]
  · intro titles c hn hc hce hp hcat
    unfold macStrengthName
    rw [hn, hc]
    dsimp only
    rw [if_neg hce, hp, hcat]
  · intro hn hc
    unfold macStrengthName winStrengthName
    rw [hn, hc]
    exact ⟨rfl, rfl⟩
  · intro titles hor
    unfold macStrengthName winStrengthName
    cases hn : s.name with
    | some v => rfl
    | none =>
      rcases hor with hs | ⟨c, hc, hce⟩
      · rw [hn] at hs
        exact absurd hs (by simp)
      · rw [hc]
        dsimp only
        rw [if_neg hce, if_neg hce]

/-- Witness for the amended C5: a step carrying its own `wkt_step_name` is
named by it in both variants. -/
theorem strength_name_priority_witness :
    macStrengthName {} (macExtractStep [("wkt_step_name", FieldValue.str "Row")])
      = .str "Row" ∧
    winStrengthName {} 0 (macExtractStep [("wkt_step_name", FieldValue.str "Row")])
      = .str "Row" := by
  have h := strength_name_priority {} {}
    (macExtractStep [("wkt_step_name", FieldValue.str "Row")]) 0 rfl rfl
  exact h.2.2.1 {} (.str "Row") rfl

/-! ## Weight display (claim C9) -/

/-- Counterexample to C9 as stated: in the win variant a weight whose
decoded `weight_display_unit` is `'other'` (FIT `fit_base_unit` 0) is
displayed as `"50 other"` — the decoded unit name is appended verbatim — so
a non-pound unit is not "treated as kilograms" there. -/
theorem win_weight_other_unit_cex :
    (win_parse_fit_with_fitparse ([], [[("sport", FieldValue.str "training")]],
        [[("exercise_weight", FieldValue.float 50),
          ("weight_display_unit", FieldValue.str "other")]])).map
        (fun w => w.steps.map (fun e => e.weight)) =
      some [some (WeightDisplay.raw 50 "other")] ∧
    "other" ≠ "kg" :=
  ⟨rfl, by decide⟩

/-- Claim C9 (amended): neither variant ever converts the weight number. In
the mac variant the raw number is labelled `lbs` when the decoded unit is
`'pound'` and `kg` for every other (or absent) unit — the suspicious
asymmetry is preserved exactly; in the win variant the number is truncated
to an integer and the decoded unit string is appended verbatim (defaulting
to `kg` only when the unit field is absent). -/
theorem exercise_weight_unit_asymmetry (s : RawStep) (i : ℕ) (w : ℚ)
    (hw : s.weight = some w) (hnz : w ≠ 0) :
    (∀ (ctx : MacCtx), ctx.cardio = false ∨ ctx.sport.isSome →
      ∃ e, macExercise ctx s = Except.ok e ∧
        e.weight = some (if s.weight_unit.getD "kg" = "pound"
          then WeightDisplay.lbs w else WeightDisplay.kg w)) ∧
    (∀ (wctx : WinCtx), wctx.cardio = false ∨ wctx.sport.isSome →
      ∃ e, winExercise wctx i s = Except.ok e ∧
        e.weight = some (WeightDisplay.raw (ratTrunc w)
          (s.weight_unit.getD "kg"))) := by
  constructor
  · intro ctx hctx
    by_cases hc : ctx.cardio = true
    · have hsp : ∃ sp, ctx.sport = some sp := by
        rcases hctx with h | h
        · rw [hc] at h
          exact absurd h (by simp)
        · exact Option.isSome_iff_exists.mp h
      rcases hsp with ⟨sp, hsp⟩
      unfold macExercise
      rw [hc, if_pos rfl, hsp]
      dsimp only
      exact ⟨_, rfl, macTail_weight s _ w hw hnz⟩
    · rw [Bool.not_eq_true] at hc
      unfold macExercise
      rw [hc]
      dsimp only
      exact ⟨_, rfl, macTail_weight s _ w hw hnz⟩
  · intro wctx hctx
    by_cases hc : wctx.cardio = true
    · have hsp : ∃ sp, wctx.sport = some sp := by
        rcases hctx with h | h
        · rw [hc] at h
          exact absurd h (by simp)
        · exact Option.isSome_iff_exists.mp h
      rcases hsp with ⟨sp, hsp⟩
      unfold winExercise
      rw [hc, if_pos rfl, hsp]
      dsimp only
      exact ⟨_, rfl, winTail_weight s _ w hw hnz⟩
    · rw [Bool.not_eq_true] at hc
      unfold winExercise
      rw [hc]
      dsimp only
      exact ⟨_, rfl, winTail_weight s _ w hw hnz⟩

/-- Witness for the amended C9 at a concrete input: weight 50 with unit
`'pound'` in a mac strength workout is labelled as raw pounds. -/
theorem exercise_weight_unit_asymmetry_witness :
    (macExercise {} (macExtractStep
        [("exercise_weight", FieldValue.float 50),
         ("weight_display_unit", FieldValue.str "pound")])).map
      (fun e => e.weight) = .ok (some (WeightDisplay.lbs 50)) := by
  have h := (exercise_weight_unit_asymmetry
    (macExtractStep [("exercise_weight", FieldValue.float 50),
      ("weight_display_unit", FieldValue.str "pound")]) 0 50 rfl
    (by decide)).1 {} (Or.inl rfl)
  rcases h with ⟨e, he, hwt⟩
  rw [he]
  dsimp only [Except.map]
  rw [hwt]
  rfl

/-- Witness for C1 at a concrete input: category 45 is collected and makes
the file invalid. -/
theorem validate_fit_file_invalid_categories_exact_witness :
    (45 : ℤ) ∈ (validate_fit_file
      (.ok [[("exercise_category", FieldValue.int 45)]])).invalid_categories ∧
    (validate_fit_file
      (.ok [[("exercise_category", FieldValue.int 45)]])).valid = false := by
  have h := validate_fit_file_invalid_categories_exact
    [[("exercise_category", FieldValue.int 45)]]
  constructor
  · exact (h.1 45).mpr ⟨by decide,
      [("exercise_category", FieldValue.int 45)], by simp, by simp⟩
  · exact h.2.2.mpr ⟨45, by decide,
      [("exercise_category", FieldValue.int 45)], by simp, by simp⟩

/-- Witness for C6 at a concrete error message. -/
theorem validate_fit_file_parse_error_total_witness :
    (validate_fit_file (.error "boom")).valid = false ∧
    (validate_fit_file (.error "boom")).issues =
      ["Error validating file: boom"] ∧
    (validate_fit_file (.error "boom")).issues.length = 1 :=
  validate_fit_file_parse_error_total "boom"

/-- Witness for C8 at a concrete path: the repaired copy of `workout.fit`
goes to `workout_repaired.fit` and the input's contents are untouched. -/
theorem repair_fit_file_new_path_frame_witness :
    repairNewPath "workout.fit" = "workout_repaired.fit" ∧
    (repair_fit_file (fun _ => none) "workout.fit" (.ok [1, 2])).2
      "workout.fit" = none := by
  have h := repair_fit_file_new_path_frame (fun _ => none) "workout.fit"
    (.ok [1, 2])
  exact ⟨by rfl, h.1⟩
